import Mathlib

/-!
Shallow embedding of the Gromov-Wasserstein barycenter core of the `ott`
repository (files `ott/core/bar_problems.py`, `ott/core/gw_barycenter.py`,
`ott/core/gw_barycenter/problem.py`, `ott/core/gw_barycenter/solver.py`).

Modelling conventions:

* JAX float arrays are idealised as exact rationals (`ℚ`); elementwise
  division follows the source's `x / y`, with the usual `x / 0 = 0`
  convention of `ℚ` standing in for the float `inf`/`nan` results (both
  conventions make a zero denominator produce a value different from the
  mathematically normalised one, which is all the claims below depend on).
* Padded 3-D arrays `[num_measures, N, D]` are total functions
  `Fin m → Fin n → Fin d → ℚ`; 2-D arrays are `Fin m → Fin n → ℚ`;
  1-D arrays whose length is data (the mixing-weight vector, the solver's
  cost/convergence traces) are `List ℚ`.
* External collaborators (the geometry's `apply_cost`, the cost function's
  `barycenter` rule, the inner linear/quadratic OT solvers, the
  segmentation utilities) are out of the spec's scope and enter the
  embedding as function parameters; everything written in the four source
  files themselves is translated directly.
* Python `assert` failures and `raise` statements are `Except.error`.
-/

/-- Errors raised by the embedded code: Python `assert` failures and
`NotImplementedError` raises. -/
inductive PyErr where
  | assertionFailed : PyErr
  | notImplemented : String → PyErr
deriving DecidableEq, Repr

/-- The closed loss enumeration of `GWBarycenterProblem` (`loss:
Literal['sqeucl', 'kl']`). -/
inductive LossName where
  | sqeucl : LossName
  | kl : LossName
deriving DecidableEq, Repr

/-- `BarycenterProblem` (file `bar_problems.py`), restricted to the padded
representation: `y` is either absent or an already padded
`[num_measures, N, D]` array and `b` either absent or `[num_measures, N]`.
The flat `[total_points, D]` + `segment_ids` representation is converted by
the external `ott.core.segment` collaborator (out of the spec's scope) and
is not modelled.  The shape parameters `m`, `n`, `d` are carried at the
type level. -/
structure BarycenterProblem (m n d : ℕ) where
  y : Option (Fin m → Fin n → Fin d → ℚ)
  b : Option (Fin m → Fin n → ℚ)
  weights : Option (List ℚ)
  debiased : Bool

/-- Leading dimension of the arrays returned by `add_slice_for_debiased`:
one synthetic slice is appended exactly when `y` and `b` are both present
and the problem is debiased. -/
def sliceDim (ys bs deb : Bool) (m : ℕ) : ℕ :=
  if ys && (bs && deb) then m + 1 else m

/-- `BarycenterProblem.add_slice_for_debiased`: returns `(y, b)` unchanged
when either is `None`; otherwise, when `debiased`, appends one all-zero
slice of shape `[1, n, d]` to `y` and `[1, n]` to `b` along axis 0. -/
def add_slice_for_debiased (deb : Bool) (m n d : ℕ)
    (y : Option (Fin m → Fin n → Fin d → ℚ)) (b : Option (Fin m → Fin n → ℚ)) :
    Option (Fin (sliceDim y.isSome b.isSome deb m) → Fin n → Fin d → ℚ) ×
      Option (Fin (sliceDim y.isSome b.isSome deb m) → Fin n → ℚ) :=
  match y, b with
  | none, b => (none, b)
  | some yv, none => (some yv, none)
  | some yv, some bv =>
    match deb with
    | false => (some yv, some bv)
    | true =>
        (some fun i j k => if h : i.val < m then yv ⟨i.val, h⟩ j k else 0,
         some fun i j => if h : i.val < m then bv ⟨i.val, h⟩ j else 0)

/-- `BarycenterProblem.segmented_y_b`, padded representation: when `y` is
absent, or both `y` (3-D) and `b` (2-D) are present, this is
`add_slice_for_debiased(y, b)`.  The remaining source branch re-segments a
flat representation through the external `segment_point_cloud`
collaborator and is outside the model. -/
def segmented_y_b (m n d : ℕ) (p : BarycenterProblem m n d) :
    Except PyErr
      (Option (Fin (sliceDim p.y.isSome p.b.isSome p.debiased m) → Fin n → Fin d → ℚ) ×
        Option (Fin (sliceDim p.y.isSome p.b.isSome p.debiased m) → Fin n → ℚ)) :=
  match p.y, p.b with
  | none, b => .ok (add_slice_for_debiased p.debiased m n d none b)
  | some yv, some bv =>
      .ok (add_slice_for_debiased p.debiased m n d (some yv) (some bv))
  | some _, none => .error (.notImplemented "segment_point_cloud collaborator")

/-- `BarycenterProblem.num_segments`: `0` when no support is given; for the
padded representation the leading dimension `m` (the source's assert that
`y.shape[0] == b.shape[0]` is discharged by the typed shapes). -/
def num_segments (m n d : ℕ) (p : BarycenterProblem m n d) : ℕ :=
  if p.y.isSome then m else 0

/-- `BarycenterProblem.weights` property: uniform `1/num_segments` when no
explicit weights are given, otherwise asserts the explicit length equals
`num_segments` and normalizes by the total; when `debiased`, appends the
synthetic `-0.5` entry. -/
def mixing_weights (m n d : ℕ) (p : BarycenterProblem m n d) : Except PyErr (List ℚ) := do
  let ns := num_segments m n d p
  let w ← match p.weights with
    | none => pure (List.replicate ns ((1 : ℚ) / ns))
    | some wv =>
        if wv.length = ns then pure (wv.map (fun x => x / wv.sum))
        else .error .assertionFailed
  pure (if p.debiased then w ++ [-(1/2 : ℚ)] else w)

section ClaimC9

/-- C9: a problem constructed with no support at all (no `y`, no explicit
weights, not debiased) has `num_segments = 0` and `mixing_weights` returns
the empty sequence rather than raising. -/
theorem claimC9 (m n d : ℕ) (b : Option (Fin m → Fin n → ℚ)) :
    num_segments m n d ⟨none, b, none, false⟩ = 0 ∧
      mixing_weights m n d ⟨none, b, none, false⟩ = .ok [] :=
  ⟨rfl, rfl⟩

end ClaimC9

/-- Sum of a list after elementwise division by a constant. -/
theorem list_sum_map_div (l : List ℚ) (c : ℚ) :
    (l.map fun x => x / c).sum = l.sum / c := by
  induction l with
  | nil => simp
  | cons a t ih => simp [ih, add_div]

/-- The monadic `pure` of `Except` is `Except.ok`. -/
theorem except_pure_eq_ok (ε α : Type) (a : α) : (pure a : Except ε α) = Except.ok a :=
  rfl

/-- Monadic bind of `Except` on a success value. -/
theorem except_bind_ok (ε α β : Type) (a : α) (f : α → Except ε β) :
    (Except.ok a >>= f : Except ε β) = f a :=
  rfl

/-- Monadic bind of `Except` on an error value. -/
theorem except_bind_error (ε α β : Type) (e : ε) (f : α → Except ε β) :
    ((Except.error e : Except ε α) >>= f) = Except.error e :=
  rfl

section ClaimC4

/-- C4 counterexample: explicit weights `[0, 0]` of matching length on a
two-measure problem are accepted, but the returned entries are `[0, 0]`
(the source divides by the zero total; in float arithmetic the entries are
`nan`), whose sum is not 1. -/
theorem claimC4_counterexample :
    mixing_weights 2 1 1 ⟨some fun _ _ _ => 0, none, some [0, 0], false⟩ =
        Except.ok [0, 0] ∧
      (([0, 0] : List ℚ).sum ≠ 1) := by
  constructor
  · simp [mixing_weights, num_segments, except_pure_eq_ok, except_bind_ok, except_bind_error]
  · norm_num

/-- C4 (amended): for every problem whose support is present, (i) absent
mixing weights yield the uniform vector `1/num_measures`; (ii) explicit
weights of matching length *and nonzero total mass* are normalized and the
returned non-debiased entries sum to 1; (iii) explicit weights of
mismatched length fail with the dimensionality assertion; (iv) debiasing
appends exactly one extra `-0.5` entry after the normalized entries. -/
theorem claimC4 (m n d : ℕ) (p : BarycenterProblem m n d) (hy : p.y.isSome = true) :
    (p.weights = none → p.debiased = false →
        mixing_weights m n d p = .ok (List.replicate m ((1 : ℚ) / m))) ∧
    (∀ wv, p.weights = some wv → wv.length = m → wv.sum ≠ 0 → p.debiased = false →
        mixing_weights m n d p = .ok (wv.map fun x => x / wv.sum) ∧
          (wv.map fun x => x / wv.sum).sum = 1) ∧
    (∀ wv, p.weights = some wv → wv.length ≠ m →
        mixing_weights m n d p = .error .assertionFailed) ∧
    (p.debiased = true →
        mixing_weights m n d p =
          (mixing_weights m n d ⟨p.y, p.b, p.weights, false⟩).map
            (fun l => l ++ [-(1/2 : ℚ)])) := by
  obtain ⟨py, pb, pw, pdeb⟩ := p
  have hns : num_segments m n d ⟨py, pb, pw, pdeb⟩ = m := by
    simp [num_segments, hy]
  refine ⟨?_, ?_, ?_, ?_⟩
  · intro hw hdeb
    simp only at hw hdeb
    subst hw hdeb
    simp [mixing_weights, hns, except_pure_eq_ok, except_bind_ok, except_bind_error]
  · intro wv hw hlen hsum hdeb
    simp only at hw hdeb
    subst hw hdeb
    refine ⟨by simp [mixing_weights, hns, hlen, except_pure_eq_ok, except_bind_ok, except_bind_error], ?_⟩
    rw [list_sum_map_div, div_self hsum]
  · intro wv hw hlen
    simp only at hw
    subst hw
    simp [mixing_weights, hns, hlen]
  · intro hdeb
    simp only at hdeb
    subst hdeb
    have hns' : num_segments m n d ⟨py, pb, pw, false⟩ = m := by
      simp [num_segments, hy]
    cases pw with
    | none => simp [mixing_weights, hns, hns', except_pure_eq_ok, except_bind_ok, except_bind_error, Except.map]
    | some wv =>
        by_cases hlen : wv.length = m
        · simp [mixing_weights, hns, hns', hlen, except_pure_eq_ok, except_bind_ok, except_bind_error, Except.map]
        · simp [mixing_weights, hns, hns', hlen, except_pure_eq_ok, except_bind_ok, except_bind_error, Except.map]

/-- C4 witness: the four amended clauses evaluated on concrete two-measure
problems. -/
theorem claimC4_witness :
    (mixing_weights 2 1 1 ⟨some fun _ _ _ => 0, none, none, false⟩ =
        .ok (List.replicate 2 ((1 : ℚ) / 2))) ∧
    (mixing_weights 2 1 1 ⟨some fun _ _ _ => 0, none, some [1, 3], false⟩ =
        .ok ([1, 3].map fun x => x / ([1, 3] : List ℚ).sum) ∧
      (([1, 3] : List ℚ).map fun x => x / ([1, 3] : List ℚ).sum).sum = 1) ∧
    (mixing_weights 2 1 1 ⟨some fun _ _ _ => 0, none, some [1], false⟩ =
        .error .assertionFailed) ∧
    (mixing_weights 2 1 1 ⟨some fun _ _ _ => 0, none, some [1, 3], true⟩ =
        (mixing_weights 2 1 1 ⟨some fun _ _ _ => 0, none, some [1, 3], false⟩).map
          (fun l => l ++ [-(1/2 : ℚ)])) := by
  refine ⟨?_, ?_, ?_, ?_⟩
  · exact (claimC4 2 1 1 ⟨some fun _ _ _ => 0, none, none, false⟩ rfl).1 rfl rfl
  · exact (claimC4 2 1 1 ⟨some fun _ _ _ => 0, none, some [1, 3], false⟩ rfl).2.1
      [1, 3] rfl (by decide) (by norm_num) rfl
  · exact (claimC4 2 1 1 ⟨some fun _ _ _ => 0, none, some [1], false⟩ rfl).2.2.1
      [1] rfl (by decide)
  · exact (claimC4 2 1 1 ⟨some fun _ _ _ => 0, none, some [1, 3], true⟩ rfl).2.2.2 rfl

end ClaimC4

section ClaimC10

/-- C10: for a debiased problem with padded 3-D support and 2-D weights,
`segmented_y_b` returns arrays with leading dimension `num_measures + 1`
whose appended slice is all zeros in both the support and the weight
arrays, and the mixing-weight vector (carrying the `-0.5` entry) has the
same extended length `num_measures + 1`. -/
theorem claimC10 (m n d : ℕ) (yv : Fin m → Fin n → Fin d → ℚ)
    (bv : Fin m → Fin n → ℚ) :
    sliceDim true true true m = num_segments m n d ⟨some yv, some bv, none, true⟩ + 1 ∧
    segmented_y_b m n d ⟨some yv, some bv, none, true⟩ =
      .ok (some fun i j k => if h : i.val < m then yv ⟨i.val, h⟩ j k else 0,
           some fun i j => if h : i.val < m then bv ⟨i.val, h⟩ j else 0) ∧
    (∀ j k,
      (fun (i : Fin (m + 1)) j k => if h : i.val < m then yv ⟨i.val, h⟩ j k else 0)
        (Fin.last m) j k = 0) ∧
    (∀ j,
      (fun (i : Fin (m + 1)) j => if h : i.val < m then bv ⟨i.val, h⟩ j else 0)
        (Fin.last m) j = 0) ∧
    mixing_weights m n d ⟨some yv, some bv, none, true⟩ =
      .ok (List.replicate m ((1 : ℚ) / m) ++ [-(1/2 : ℚ)]) ∧
    (List.replicate m ((1 : ℚ) / m) ++ [-(1/2 : ℚ)]).length =
      num_segments m n d ⟨some yv, some bv, none, true⟩ + 1 := by
  refine ⟨rfl, rfl, ?_, ?_, ?_, ?_⟩
  · intro j k
    simp [Fin.last]
  · intro j
    simp [Fin.last]
  · simp [mixing_weights, num_segments, except_pure_eq_ok, except_bind_ok, except_bind_error]
  · simp [num_segments]

end ClaimC10

/-!
`GWBarycenterProblem` methods.  Two overlapping implementations exist in
the source: `ott/core/bar_problems.py` (namespace `BarProblems` below) and
`ott/core/gw_barycenter/problem.py` (namespace `GWBPackage` below).  The
per-measure geometry object (`geometry.Geometry` over a cost matrix when
`is_cost`, else `pointcloud.PointCloud`) is an external collaborator; each
measure contributes only through its `apply_cost` operator, which enters
the embedding as the parameter `applyCost`, with `applyCost fn M` standing
for `geom.apply_cost(M, axis=0, fn=fn)`.  Likewise `expFn` stands for the
external `jnp.exp` and `klLogFn` for `self.loss[1][1]`, the log transform
of the external `quad_problems.make_kl_loss`.
-/

/-- The `fn` argument passed to `apply_cost`: `None` for the
squared-Euclidean loss, the KL loss's log transform otherwise. -/
def loss_fn_selector (loss : LossName) (klLogFn : ℚ → ℚ) : Option (ℚ → ℚ) :=
  if loss = .sqeucl then none else some klLogFn

/-- The vmapped `project` closure shared by both `update_barycenter`
implementations: apply the measure's cost operator to the transposed
transport plan, then left-multiply by the transport plan. -/
def project (B N : ℕ)
    (applyCost : Option (ℚ → ℚ) → Matrix (Fin N) (Fin B) ℚ → Matrix (Fin N) (Fin B) ℚ)
    (transport : Matrix (Fin B) (Fin N) ℚ) (fn : Option (ℚ → ℚ)) :
    Matrix (Fin B) (Fin B) ℚ :=
  transport * applyCost fn (Matrix.transpose transport)

/-- The multiplier `jnp.where(a > 0, 1.0 / a, 1.0)` used by
`update_features`: reciprocal of each positive barycenter weight, and 1
for each non-positive entry. -/
def divide_a (B : ℕ) (a : Fin B → ℚ) : Fin B → ℚ :=
  fun p => if 0 < a p then 1 / a p else 1

/-- `barycentric_projection` (module-level function of `bar_problems.py`),
per measure: row `p` of the result is `cost_fn.barycenter` (external
`costs.Euclidean` rule, parameter `costBarycenter`) of row `p` of the
transport matrix against the feature array `y`. -/
def barycentric_projection (B N Df : ℕ)
    (costBarycenter : (Fin N → ℚ) → (Fin N → Fin Df → ℚ) → Fin Df → ℚ)
    (matrix : Matrix (Fin B) (Fin N) ℚ) (y : Fin N → Fin Df → ℚ) :
    Matrix (Fin B) (Fin Df) ℚ :=
  Matrix.of fun p => costBarycenter (fun q => matrix p q) y

namespace BarProblems

/-- `GWBarycenterProblem.update_barycenter` of `bar_problems.py` up to (but
not including) the final KL exponentiation: weighted sum over measures of
the projected transport plans, divided elementwise by the outer product
`jnp.outer(a, a)`.  `w` stands for the problem's `self.weights` (see
`mixing_weights`) and `transports` for the `[num_measures, B, N]` batch. -/
def update_barycenter_without_exp (mm B N : ℕ) (loss : LossName) (klLogFn : ℚ → ℚ)
    (w : Fin mm → ℚ)
    (applyCost : Fin mm → Option (ℚ → ℚ) → Matrix (Fin N) (Fin B) ℚ → Matrix (Fin N) (Fin B) ℚ)
    (transports : Fin mm → Matrix (Fin B) (Fin N) ℚ) (a : Fin B → ℚ) :
    Matrix (Fin B) (Fin B) ℚ :=
  let fn := loss_fn_selector loss klLogFn
  let agg : Matrix (Fin B) (Fin B) ℚ :=
    ∑ i, w i • project B N (applyCost i) (transports i) fn
  Matrix.of fun p q => agg p q / (a p * a q)

/-- `GWBarycenterProblem.update_barycenter` of `bar_problems.py`: the
pre-exponentiation value, exponentiated elementwise when the loss is KL. -/
def update_barycenter (mm B N : ℕ) (loss : LossName) (expFn klLogFn : ℚ → ℚ)
    (w : Fin mm → ℚ)
    (applyCost : Fin mm → Option (ℚ → ℚ) → Matrix (Fin N) (Fin B) ℚ → Matrix (Fin N) (Fin B) ℚ)
    (transports : Fin mm → Matrix (Fin B) (Fin N) ℚ) (a : Fin B → ℚ) :
    Matrix (Fin B) (Fin B) ℚ :=
  let barycenter := update_barycenter_without_exp mm B N loss klLogFn w applyCost transports a
  if loss = .kl then Matrix.of fun p q => expFn (barycenter p q) else barycenter

/-- `GWBarycenterProblem.update_features` of `bar_problems.py`: `None` when
not fused; otherwise rescale the transport plans by `divide_a`, and—for the
squared-Euclidean loss only—return the mixing-weighted sum of barycentric
projections; any other loss raises `NotImplementedError`. -/
def update_features (mm B N Df : ℕ) (loss : LossName)
    (costBarycenter : (Fin N → ℚ) → (Fin N → Fin Df → ℚ) → Fin Df → ℚ)
    (y_fused : Option (Fin mm → Fin N → Fin Df → ℚ))
    (w : Fin mm → ℚ) (transports : Fin mm → Matrix (Fin B) (Fin N) ℚ) (a : Fin B → ℚ) :
    Except PyErr (Option (Matrix (Fin B) (Fin Df) ℚ)) :=
  match y_fused with
  | none => .ok none
  | some yF =>
      let transports' : Fin mm → Matrix (Fin B) (Fin N) ℚ :=
        fun i => Matrix.of fun p q => transports i p q * divide_a B a p
      match loss with
      | .sqeucl =>
          .ok (some (∑ i, w i •
            barycentric_projection B N Df costBarycenter (transports' i) (yF i)))
      | .kl => .error (.notImplemented "kl")

end BarProblems

namespace GWBPackage

/-- `GWBarycenterProblem.update_barycenter` of `gw_barycenter/problem.py`
up to the final KL exponentiation: same weighted sum of projections, but
normalized by multiplying with the reciprocal of the inner product
`jnp.vdot(a, a)`. -/
def update_barycenter_without_exp (mm B N : ℕ) (loss : LossName) (klLogFn : ℚ → ℚ)
    (w : Fin mm → ℚ)
    (applyCost : Fin mm → Option (ℚ → ℚ) → Matrix (Fin N) (Fin B) ℚ → Matrix (Fin N) (Fin B) ℚ)
    (transports : Fin mm → Matrix (Fin B) (Fin N) ℚ) (a : Fin B → ℚ) :
    Matrix (Fin B) (Fin B) ℚ :=
  let fn := loss_fn_selector loss klLogFn
  let agg : Matrix (Fin B) (Fin B) ℚ :=
    ∑ i, w i • project B N (applyCost i) (transports i) fn
  Matrix.of fun p q => agg p q * (1 / ∑ r, a r * a r)

/-- `GWBarycenterProblem.update_barycenter` of `gw_barycenter/problem.py`
(the "simplified variant"): exponentiated elementwise when the loss is
KL. -/
def update_barycenter (mm B N : ℕ) (loss : LossName) (expFn klLogFn : ℚ → ℚ)
    (w : Fin mm → ℚ)
    (applyCost : Fin mm → Option (ℚ → ℚ) → Matrix (Fin N) (Fin B) ℚ → Matrix (Fin N) (Fin B) ℚ)
    (transports : Fin mm → Matrix (Fin B) (Fin N) ℚ) (a : Fin B → ℚ) :
    Matrix (Fin B) (Fin B) ℚ :=
  let barycenter := update_barycenter_without_exp mm B N loss klLogFn w applyCost transports a
  if loss = .kl then Matrix.of fun p q => expFn (barycenter p q) else barycenter

/-- `GWBarycenterProblem.update_features` of `gw_barycenter/problem.py`:
identical to the `bar_problems.py` version except that the `divide_a`
rescaling is computed inside the squared-Euclidean branch. -/
def update_features (mm B N Df : ℕ) (loss : LossName)
    (costBarycenter : (Fin N → ℚ) → (Fin N → Fin Df → ℚ) → Fin Df → ℚ)
    (y_fused : Option (Fin mm → Fin N → Fin Df → ℚ))
    (w : Fin mm → ℚ) (transports : Fin mm → Matrix (Fin B) (Fin N) ℚ) (a : Fin B → ℚ) :
    Except PyErr (Option (Matrix (Fin B) (Fin Df) ℚ)) :=
  match y_fused with
  | none => .ok none
  | some yF =>
      match loss with
      | .sqeucl =>
          let transports' : Fin mm → Matrix (Fin B) (Fin N) ℚ :=
            fun i => Matrix.of fun p q => transports i p q * divide_a B a p
          .ok (some (∑ i, w i •
            barycentric_projection B N Df costBarycenter (transports' i) (yF i)))
      | .kl => .error (.notImplemented "kl")

end GWBPackage

section ClaimC1

/-- C1 counterexample: with one measure, mixing weight 1, the identity
transport plan on a barycenter of size 2, the identity `apply_cost`
operator, squared-Euclidean loss and barycenter weights `a = (1, 2)`, the
`bar_problems.py` update divides entry (0,0) by `a 0 * a 0 = 1` while the
simplified variant multiplies it by `1 / (a·a) = 1/5`; the two support
matrices differ. -/
theorem claimC1_counterexample :
    BarProblems.update_barycenter 1 2 2 .sqeucl id id (fun _ => 1) (fun _ _ M => M)
        (fun _ => 1) ![1, 2] ≠
      GWBPackage.update_barycenter 1 2 2 .sqeucl id id (fun _ => 1) (fun _ _ M => M)
        (fun _ => 1) ![1, 2] := by
  intro h
  have h00 := congrFun (congrFun h 0) 0
  simp [BarProblems.update_barycenter, BarProblems.update_barycenter_without_exp,
    GWBPackage.update_barycenter, GWBPackage.update_barycenter_without_exp,
    project, loss_fn_selector, Matrix.transpose_one, Fin.sum_univ_one,
    Fin.sum_univ_two, Matrix.one_apply] at h00

/-- C1 (amended): the two `update_barycenter` implementations agree
exactly on those barycenter weight vectors `a` for which every entry of
the outer product of `a` with itself equals the inner product of `a` with
itself (e.g. a barycenter of size one); in general they normalize
differently — elementwise division by `outer(a, a)` versus global scaling
by `1 / vdot(a, a)` — and return different support matrices. -/
theorem claimC1 (mm B N : ℕ) (loss : LossName) (expFn klLogFn : ℚ → ℚ)
    (w : Fin mm → ℚ)
    (applyCost : Fin mm → Option (ℚ → ℚ) → Matrix (Fin N) (Fin B) ℚ → Matrix (Fin N) (Fin B) ℚ)
    (transports : Fin mm → Matrix (Fin B) (Fin N) ℚ) (a : Fin B → ℚ)
    (ha : ∀ p q : Fin B, a p * a q = ∑ r, a r * a r) :
    BarProblems.update_barycenter mm B N loss expFn klLogFn w applyCost transports a =
      GWBPackage.update_barycenter mm B N loss expFn klLogFn w applyCost transports a := by
  have key : BarProblems.update_barycenter_without_exp mm B N loss klLogFn w applyCost
        transports a =
      GWBPackage.update_barycenter_without_exp mm B N loss klLogFn w applyCost
        transports a := by
    funext p q
    simp only [BarProblems.update_barycenter_without_exp,
      GWBPackage.update_barycenter_without_exp, Matrix.of_apply]
    rw [ha p q, div_eq_mul_one_div]
  simp only [BarProblems.update_barycenter, GWBPackage.update_barycenter, key]

/-- C1 witness for the amended statement: barycenter of size one with unit
weight, where both normalizations divide by 1. -/
theorem claimC1_witness :
    BarProblems.update_barycenter 1 1 1 .sqeucl id id (fun _ => 1) (fun _ _ M => M)
        (fun _ => 1) (fun _ => 1) =
      GWBPackage.update_barycenter 1 1 1 .sqeucl id id (fun _ => 1) (fun _ _ M => M)
        (fun _ => 1) (fun _ => 1) :=
  claimC1 1 1 1 .sqeucl id id (fun _ => 1) (fun _ _ M => M) (fun _ => 1) (fun _ => 1)
    (by intro p q; simp [Fin.sum_univ_one])

end ClaimC1

section ClaimC5

/-- C5: under the KL loss (for any transport-plan batch, mixing weights,
barycenter weights and external collaborators), `update_barycenter` of
`bar_problems.py` equals the elementwise exponential of the
pre-exponentiation aggregation `update_barycenter_without_exp`, which
applies the KL log transform in its `apply_cost` step. -/
theorem claimC5 (mm B N : ℕ) (expFn klLogFn : ℚ → ℚ) (w : Fin mm → ℚ)
    (applyCost : Fin mm → Option (ℚ → ℚ) → Matrix (Fin N) (Fin B) ℚ → Matrix (Fin N) (Fin B) ℚ)
    (transports : Fin mm → Matrix (Fin B) (Fin N) ℚ) (a : Fin B → ℚ) :
    (BarProblems.update_barycenter mm B N .kl expFn klLogFn w applyCost transports a =
      Matrix.of fun p q =>
        expFn (BarProblems.update_barycenter_without_exp mm B N .kl klLogFn w applyCost
          transports a p q)) ∧
    loss_fn_selector .kl klLogFn = some klLogFn := by
  constructor
  · rfl
  · rfl

end ClaimC5

section ClaimC3

/-- C3: `update_features` returns the absent value (`None`) immediately
when the problem is not fused (no feature array supplied), for any
transport-plan batch and weight vector; and for a fused problem any loss
other than squared-Euclidean fails with the not-implemented signal. -/
theorem claimC3 (mm B N Df : ℕ) (loss : LossName)
    (costBarycenter : (Fin N → ℚ) → (Fin N → Fin Df → ℚ) → Fin Df → ℚ)
    (w : Fin mm → ℚ) (transports : Fin mm → Matrix (Fin B) (Fin N) ℚ) (a : Fin B → ℚ) :
    BarProblems.update_features mm B N Df loss costBarycenter none w transports a =
        .ok none ∧
      (∀ yF, loss ≠ .sqeucl →
        BarProblems.update_features mm B N Df loss costBarycenter (some yF) w transports a =
          .error (.notImplemented "kl")) := by
  refine ⟨rfl, fun yF hloss => ?_⟩
  cases loss with
  | sqeucl => exact absurd rfl hloss
  | kl => rfl

/-- C3 witness: concrete one-measure problem, evaluated both without a
feature array and with one under the KL loss. -/
theorem claimC3_witness :
    BarProblems.update_features 1 1 1 1 LossName.kl (fun wrow y df => ∑ q, wrow q * y q df) none
        (fun _ => 1) (fun _ => 1) (fun _ => 1) = .ok none ∧
      BarProblems.update_features 1 1 1 1 LossName.kl (fun wrow y df => ∑ q, wrow q * y q df)
          (some fun _ _ _ => 1) (fun _ => 1) (fun _ => 1) (fun _ => 1) =
        .error (.notImplemented "kl") := by
  have h := claimC3 1 1 1 1 .kl (fun wrow y df => ∑ q, wrow q * y q df)
    (fun _ => 1) (fun _ => 1) (fun _ => 1)
  exact ⟨h.1, h.2 (fun _ _ _ => 1) (by decide)⟩

end ClaimC3

section ClaimC2

/-- C2 counterexample: a fused problem with the KL loss and barycenter
weight vector `(0, 1)` (containing a zero entry) does not return updated
features — `update_features` raises `NotImplementedError` for any loss
other than squared-Euclidean, reaching the raise after computing the
zero-weight multiplier. -/
theorem claimC2_counterexample :
    BarProblems.update_features 1 2 2 1 LossName.kl (fun wrow y df => ∑ q, wrow q * y q df)
        (some fun _ _ _ => 1) (fun _ => 1) (fun _ => 1) ![0, 1] =
      .error (.notImplemented "kl") :=
  rfl

/-- C2 (amended): for every fused problem with the *squared-Euclidean*
loss and every barycenter weight vector containing a zero entry,
`update_features` does not raise a division error: it substitutes a
multiplier of 1 for each zero-weight entry (instead of dividing by it) and
returns the updated features.  (With the KL loss the source instead raises
`NotImplementedError`, see the counterexample.) -/
theorem claimC2 (mm B N Df : ℕ)
    (costBarycenter : (Fin N → ℚ) → (Fin N → Fin Df → ℚ) → Fin Df → ℚ)
    (yF : Fin mm → Fin N → Fin Df → ℚ)
    (w : Fin mm → ℚ) (transports : Fin mm → Matrix (Fin B) (Fin N) ℚ) (a : Fin B → ℚ)
    (p0 : Fin B) (h : a p0 = 0) :
    (BarProblems.update_features mm B N Df .sqeucl costBarycenter (some yF) w
        transports a =
      .ok (some (∑ i, w i • barycentric_projection B N Df costBarycenter
        (Matrix.of fun p q => transports i p q * divide_a B a p) (yF i)))) ∧
      divide_a B a p0 = 1 := by
  refine ⟨rfl, ?_⟩
  simp [divide_a, h]

/-- C2 witness for the amended statement: fused squared-Euclidean problem
with barycenter weights `(0, 1)`. -/
theorem claimC2_witness :
    (BarProblems.update_features 1 2 2 1 LossName.sqeucl
        (fun wrow y df => ∑ q, wrow q * y q df)
        (some fun _ _ _ => 1) (fun _ => 1) (fun _ => 1) ![0, 1] =
      .ok (some (∑ i, (fun (_ : Fin 1) => (1 : ℚ)) i •
        barycentric_projection 2 2 1 (fun wrow y df => ∑ q, wrow q * y q df)
          (Matrix.of fun p q => (fun (_ : Fin 1) => (1 : Matrix (Fin 2) (Fin 2) ℚ)) i p q *
            divide_a 2 ![0, 1] p)
          ((fun (_ : Fin 1) (_ : Fin 2) (_ : Fin 1) => (1 : ℚ)) i)))) ∧
      divide_a 2 ![0, 1] 0 = 1 :=
  claimC2 1 2 2 1 (fun wrow y df => ∑ q, wrow q * y q df) (fun _ _ _ => 1)
    (fun _ => 1) (fun _ => 1) ![0, 1] 0 (by simp)

end ClaimC2

/-!
`GromovWassersteinBarycenter` solver (file `ott/core/gw_barycenter.py`,
which consumes `bar_problems.GWBarycenterProblem`).  The inner vmapped
`solve_gw` closure builds three geometries and calls the external
`self._quad_solver`; it enters the embedding as the parameter `solve_gw`
mapping the current state to the per-measure solver outputs.  The outer
fixed-point loop (`fixed_point_loop.fixpoint_iter`) is an external
collaborator; repeated applications of `update_state` at a given sequence
of iteration indices are modelled by `run_updates`.
-/

/-- Output of one external quadratic GW solve: `out.reg_gw_cost`,
`out.convergence`, `out.matrix` and the inner error trace. -/
structure GWOut (B N : ℕ) where
  reg_gw_cost : ℚ
  convergence : Bool
  matrix : Matrix (Fin B) (Fin N) ℚ
  errors : List ℚ

/-- `GWBarycenterState` (named tuple of `gw_barycenter.py`): barycenter
cost matrix, optional features, barycenter weights, optional inner-error
trace, cost trace, and convergence trace. -/
structure GWBarycenterState (B N Df : ℕ) where
  cost : Matrix (Fin B) (Fin B) ℚ
  x : Option (Matrix (Fin B) (Fin Df) ℚ)
  a : Fin B → ℚ
  errors : Option (List (List ℚ))
  costs : List ℚ
  gw_convergence : List ℚ

/-- `GromovWassersteinBarycenter.init_state`, trace-initialization part:
`costs` and `gw_convergence` are `-ones((max_iterations,))` and the inner
error trace is pre-allocated (as `-ones`) only when `store_inner_errors`.
The initial `cost`/`x` values are the given explicit `bar_init` (whose
shape asserts are discharged by the typed model) or the warm-start values
produced through the external random linear OT solve. -/
def init_state (B N Df : ℕ) (max_iterations : ℕ) (store_inner_errors : Bool)
    (num_measures quad_max_iterations lin_outer_iterations : ℕ)
    (cost : Matrix (Fin B) (Fin B) ℚ) (x : Option (Matrix (Fin B) (Fin Df) ℚ))
    (a : Fin B → ℚ) : GWBarycenterState B N Df :=
  { cost := cost, x := x, a := a,
    errors :=
      if store_inner_errors then
        some (List.replicate max_iterations
          (List.replicate (num_measures * quad_max_iterations * lin_outer_iterations)
            (-1)))
      else none,
    costs := List.replicate max_iterations (-1),
    gw_convergence := List.replicate max_iterations (-1) }

/-- `GromovWassersteinBarycenter.update_state`: solve one GW subproblem
per measure (external, `solve_gw`), write the mixing-weight-weighted sum
of the regularized costs into the cost trace at `iteration`, write the
conjunction of the convergence flags into the convergence trace, update
the error trace when requested, and recompute features and support from
the batch of transport plans (propagating `update_features`'s
`NotImplementedError` when it raises). -/
def update_state (mm B N Df : ℕ) (loss : LossName) (expFn klLogFn : ℚ → ℚ)
    (costBarycenter : (Fin N → ℚ) → (Fin N → Fin Df → ℚ) → Fin Df → ℚ)
    (y_fused : Option (Fin mm → Fin N → Fin Df → ℚ))
    (w : Fin mm → ℚ)
    (applyCost : Fin mm → Option (ℚ → ℚ) → Matrix (Fin N) (Fin B) ℚ → Matrix (Fin N) (Fin B) ℚ)
    (store_inner_errors : Bool)
    (solve_gw : GWBarycenterState B N Df → Fin mm → GWOut B N)
    (state : GWBarycenterState B N Df) (iteration : ℕ) :
    Except PyErr (GWBarycenterState B N Df) :=
  let outs : Fin mm → GWOut B N := solve_gw state
  let cost : ℚ := ∑ i, (outs i).reg_gw_cost * w i
  let costs' := state.costs.set iteration cost
  let converged : Bool := decide (∀ i, (outs i).convergence = true)
  let gw_convergence' := state.gw_convergence.set iteration (if converged then 1 else 0)
  let errors' : Option (List (List ℚ)) :=
    if store_inner_errors then
      state.errors.map fun e =>
        e.set iteration ((List.ofFn fun i => (outs i).errors).flatten)
    else none
  match BarProblems.update_features mm B N Df loss costBarycenter y_fused w
      (fun i => (outs i).matrix) state.a with
  | .error e => .error e
  | .ok x_new =>
      .ok { state with
            cost := BarProblems.update_barycenter mm B N loss expFn klLogFn w applyCost
              (fun i => (outs i).matrix) state.a,
            x := x_new,
            costs := costs',
            gw_convergence := gw_convergence',
            errors := errors' }

/-- Repeated application of `update_state` at the given iteration indices
(the index sequence produced by the external fixed-point loop). -/
def run_updates (mm B N Df : ℕ) (loss : LossName) (expFn klLogFn : ℚ → ℚ)
    (costBarycenter : (Fin N → ℚ) → (Fin N → Fin Df → ℚ) → Fin Df → ℚ)
    (y_fused : Option (Fin mm → Fin N → Fin Df → ℚ))
    (w : Fin mm → ℚ)
    (applyCost : Fin mm → Option (ℚ → ℚ) → Matrix (Fin N) (Fin B) ℚ → Matrix (Fin N) (Fin B) ℚ)
    (store_inner_errors : Bool)
    (solve_gw : GWBarycenterState B N Df → Fin mm → GWOut B N)
    (its : List ℕ) (state : GWBarycenterState B N Df) :
    Except PyErr (GWBarycenterState B N Df) :=
  match its with
  | [] => .ok state
  | it :: rest =>
      match update_state mm B N Df loss expFn klLogFn costBarycenter y_fused w applyCost
          store_inner_errors solve_gw state it with
      | .error e => .error e
      | .ok s2 =>
          run_updates mm B N Df loss expFn klLogFn costBarycenter y_fused w applyCost
            store_inner_errors solve_gw rest s2

/-- Entry `j` of `List.replicate M x` is `x` for `j < M`. -/
theorem list_get_opt_replicate (x : ℚ) (M j : ℕ) (h : j < M) :
    (List.replicate M x).get? j = some x := by
  induction M generalizing j with
  | zero => omega
  | succ M ih =>
      cases j with
      | zero => rfl
      | succ j => simpa [List.replicate_succ] using ih j (by omega)

section ClaimC6

/-- C6: whenever `update_state` returns a new state, that state's cost
trace holds, at the iteration index, exactly the mixing-weight-weighted
sum of the per-measure regularized costs returned by the inner solver,
and its convergence trace holds, at the same index, the logical AND of
all measures' convergence flags (written as 1/0 into the float trace). -/
theorem claimC6 (mm B N Df : ℕ) (loss : LossName) (expFn klLogFn : ℚ → ℚ)
    (costBarycenter : (Fin N → ℚ) → (Fin N → Fin Df → ℚ) → Fin Df → ℚ)
    (y_fused : Option (Fin mm → Fin N → Fin Df → ℚ))
    (w : Fin mm → ℚ)
    (applyCost : Fin mm → Option (ℚ → ℚ) → Matrix (Fin N) (Fin B) ℚ → Matrix (Fin N) (Fin B) ℚ)
    (store_inner_errors : Bool)
    (solve_gw : GWBarycenterState B N Df → Fin mm → GWOut B N)
    (state : GWBarycenterState B N Df) (iteration : ℕ)
    (s2 : GWBarycenterState B N Df)
    (h1 : iteration < state.costs.length)
    (h2 : iteration < state.gw_convergence.length)
    (hok : update_state mm B N Df loss expFn klLogFn costBarycenter y_fused w applyCost
        store_inner_errors solve_gw state iteration = .ok s2) :
    s2.costs.get? iteration =
        some (∑ i, (solve_gw state i).reg_gw_cost * w i) ∧
      s2.gw_convergence.get? iteration =
        some (if (∀ i, (solve_gw state i).convergence = true) then (1 : ℚ) else 0) := by
  dsimp only [update_state] at hok
  cases hfeat : BarProblems.update_features mm B N Df loss costBarycenter y_fused w
      (fun i => (solve_gw state i).matrix) state.a with
  | error e => rw [hfeat] at hok; exact absurd hok (by simp)
  | ok xv =>
      rw [hfeat] at hok
      cases hok
      constructor
      · exact List.get?_set_eq_of_lt _ h1
      · rw [List.get?_set_eq_of_lt _ h2]
        by_cases hall : ∀ i, (solve_gw state i).convergence = true
        · simp [hall]
        · simp [hall]

end ClaimC6

section ClaimC8

/-- C8: the state returned by `update_state` carries the same barycenter
weight vector `a` as the input state — only the support, features and
trace fields are replaced. -/
theorem claimC8 (mm B N Df : ℕ) (loss : LossName) (expFn klLogFn : ℚ → ℚ)
    (costBarycenter : (Fin N → ℚ) → (Fin N → Fin Df → ℚ) → Fin Df → ℚ)
    (y_fused : Option (Fin mm → Fin N → Fin Df → ℚ))
    (w : Fin mm → ℚ)
    (applyCost : Fin mm → Option (ℚ → ℚ) → Matrix (Fin N) (Fin B) ℚ → Matrix (Fin N) (Fin B) ℚ)
    (store_inner_errors : Bool)
    (solve_gw : GWBarycenterState B N Df → Fin mm → GWOut B N)
    (state : GWBarycenterState B N Df) (iteration : ℕ)
    (s2 : GWBarycenterState B N Df)
    (hok : update_state mm B N Df loss expFn klLogFn costBarycenter y_fused w applyCost
        store_inner_errors solve_gw state iteration = .ok s2) :
    s2.a = state.a := by
  dsimp only [update_state] at hok
  cases hfeat : BarProblems.update_features mm B N Df loss costBarycenter y_fused w
      (fun i => (solve_gw state i).matrix) state.a with
  | error e => rw [hfeat] at hok; exact absurd hok (by simp)
  | ok xv => rw [hfeat] at hok; cases hok; rfl

end ClaimC8

/-- Frame lemma for one `update_state` call: the cost trace changes only
at the call's own iteration index, and its length is preserved. -/
theorem update_state_costs_frame (mm B N Df : ℕ) (loss : LossName) (expFn klLogFn : ℚ → ℚ)
    (costBarycenter : (Fin N → ℚ) → (Fin N → Fin Df → ℚ) → Fin Df → ℚ)
    (y_fused : Option (Fin mm → Fin N → Fin Df → ℚ))
    (w : Fin mm → ℚ)
    (applyCost : Fin mm → Option (ℚ → ℚ) → Matrix (Fin N) (Fin B) ℚ → Matrix (Fin N) (Fin B) ℚ)
    (store_inner_errors : Bool)
    (solve_gw : GWBarycenterState B N Df → Fin mm → GWOut B N)
    (state : GWBarycenterState B N Df) (iteration : ℕ)
    (s2 : GWBarycenterState B N Df)
    (hok : update_state mm B N Df loss expFn klLogFn costBarycenter y_fused w applyCost
        store_inner_errors solve_gw state iteration = .ok s2)
    (k : ℕ) (hk : k ≠ iteration) :
    s2.costs.get? k = state.costs.get? k ∧ s2.costs.length = state.costs.length := by
  dsimp only [update_state] at hok
  cases hfeat : BarProblems.update_features mm B N Df loss costBarycenter y_fused w
      (fun i => (solve_gw state i).matrix) state.a with
  | error e => rw [hfeat] at hok; exact absurd hok (by simp)
  | ok xv =>
      rw [hfeat] at hok
      cases hok
      exact ⟨List.get?_set_ne _ _ (Ne.symm hk), List.length_set _ _ _⟩

/-- Frame lemma for a whole run: an index visited by none of the updates
keeps its cost-trace entry, and the trace length never changes. -/
theorem run_updates_costs_frame (mm B N Df : ℕ) (loss : LossName) (expFn klLogFn : ℚ → ℚ)
    (costBarycenter : (Fin N → ℚ) → (Fin N → Fin Df → ℚ) → Fin Df → ℚ)
    (y_fused : Option (Fin mm → Fin N → Fin Df → ℚ))
    (w : Fin mm → ℚ)
    (applyCost : Fin mm → Option (ℚ → ℚ) → Matrix (Fin N) (Fin B) ℚ → Matrix (Fin N) (Fin B) ℚ)
    (store_inner_errors : Bool)
    (solve_gw : GWBarycenterState B N Df → Fin mm → GWOut B N)
    (its : List ℕ) (state : GWBarycenterState B N Df)
    (sF : GWBarycenterState B N Df)
    (hrun : run_updates mm B N Df loss expFn klLogFn costBarycenter y_fused w applyCost
        store_inner_errors solve_gw its state = .ok sF)
    (j : ℕ) (hj : j ∉ its) :
    sF.costs.get? j = state.costs.get? j ∧ sF.costs.length = state.costs.length := by
  induction its generalizing state with
  | nil =>
      dsimp only [run_updates] at hrun
      cases hrun
      exact ⟨rfl, rfl⟩
  | cons it rest ih =>
      dsimp only [run_updates] at hrun
      cases hupd : update_state mm B N Df loss expFn klLogFn costBarycenter y_fused w
          applyCost store_inner_errors solve_gw state it with
      | error e => rw [hupd] at hrun; exact absurd hrun (by simp)
      | ok s2 =>
          rw [hupd] at hrun
          have hne : j ≠ it := fun h => hj (by simp [h])
          have hrest : j ∉ rest := fun h => hj (List.mem_cons_of_mem _ h)
          have h1 := update_state_costs_frame mm B N Df loss expFn klLogFn costBarycenter
            y_fused w applyCost store_inner_errors solve_gw state it s2 hupd j hne
          have h2 := ih s2 hrun hrest
          exact ⟨h2.1.trans h1.1, h2.2.trans h1.2⟩


section ClaimC7

/-- C7: for a run with `max_iterations = M`, the cost trace created by
`init_state` has exactly `M` entries all initialized to the sentinel `-1`;
each `update_state` call overwrites only the entry at its own iteration
index (stated for the arbitrary call `state', it', s2', k'`); and after any
sequence of successful updates, the trace still has `M` entries and every
index never visited still holds `-1`. -/
theorem claimC7 (mm B N Df : ℕ) (loss : LossName) (expFn klLogFn : ℚ → ℚ)
    (costBarycenter : (Fin N → ℚ) → (Fin N → Fin Df → ℚ) → Fin Df → ℚ)
    (y_fused : Option (Fin mm → Fin N → Fin Df → ℚ))
    (w : Fin mm → ℚ)
    (applyCost : Fin mm → Option (ℚ → ℚ) → Matrix (Fin N) (Fin B) ℚ → Matrix (Fin N) (Fin B) ℚ)
    (store_inner_errors : Bool)
    (solve_gw : GWBarycenterState B N Df → Fin mm → GWOut B N)
    (M num_measures quad_max_iterations lin_outer_iterations : ℕ)
    (cost0 : Matrix (Fin B) (Fin B) ℚ) (x0 : Option (Matrix (Fin B) (Fin Df) ℚ))
    (a0 : Fin B → ℚ)
    (its : List ℕ) (sF : GWBarycenterState B N Df)
    (hrun : run_updates mm B N Df loss expFn klLogFn costBarycenter y_fused w applyCost
        store_inner_errors solve_gw its
        (init_state B N Df M store_inner_errors num_measures quad_max_iterations
          lin_outer_iterations cost0 x0 a0) = .ok sF)
    (j : ℕ) (hj : j < M) (hnot : j ∉ its)
    (state' : GWBarycenterState B N Df) (it' : ℕ) (s2' : GWBarycenterState B N Df)
    (k' : ℕ) :
    (init_state B N Df M store_inner_errors num_measures quad_max_iterations
        lin_outer_iterations cost0 x0 a0).costs = List.replicate M (-1) ∧
    (init_state B N Df M store_inner_errors num_measures quad_max_iterations
        lin_outer_iterations cost0 x0 a0).costs.length = M ∧
    (update_state mm B N Df loss expFn klLogFn costBarycenter y_fused w applyCost
        store_inner_errors solve_gw state' it' = .ok s2' → k' ≠ it' →
      s2'.costs.get? k' = state'.costs.get? k') ∧
    sF.costs.length = M ∧
    sF.costs.get? j = some (-1) := by
  have hframe := run_updates_costs_frame mm B N Df loss expFn klLogFn costBarycenter
    y_fused w applyCost store_inner_errors solve_gw its
    (init_state B N Df M store_inner_errors num_measures quad_max_iterations
      lin_outer_iterations cost0 x0 a0) sF hrun j hnot
  refine ⟨rfl, by simp [init_state], ?_, ?_, ?_⟩
  · intro hok hk
    exact (update_state_costs_frame mm B N Df loss expFn klLogFn costBarycenter y_fused w
      applyCost store_inner_errors solve_gw state' it' s2' hok k' hk).1
  · rw [hframe.2]
    simp [init_state]
  · rw [hframe.1]
    exact list_get_opt_replicate (-1) M j hj

end ClaimC7

/-!
Concrete instances used by the witnesses of the solver claims: zero
measures, a barycenter of size one, two outer iterations.  `demoSolve`
plays the role of the external per-measure GW solver.
-/

/-- Witness instance: external solver response with zero measures. -/
def demoSolve : GWBarycenterState 1 1 1 → Fin 0 → GWOut 1 1 := fun _ i => i.elim0

/-- Witness instance: mixing weights over zero measures. -/
def demoW : Fin 0 → ℚ := fun i => i.elim0

/-- Witness instance: per-measure cost operators over zero measures. -/
def demoAC : Fin 0 → Option (ℚ → ℚ) → Matrix (Fin 1) (Fin 1) ℚ → Matrix (Fin 1) (Fin 1) ℚ :=
  fun i => i.elim0

/-- Witness instance: a Euclidean-style barycenter rule. -/
def demoCB : (Fin 1 → ℚ) → (Fin 1 → Fin 1 → ℚ) → Fin 1 → ℚ :=
  fun r y df => r 0 * y 0 df

/-- Witness instance: a state with two not-yet-filled trace slots. -/
def demoState0 : GWBarycenterState 1 1 1 :=
  { cost := Matrix.of fun _ _ => 0, x := none, a := fun _ => 1, errors := none,
    costs := [-1, -1], gw_convergence := [-1, -1] }

/-- Witness instance: the state produced by one `update_state` call on
`demoState0` at iteration 0. -/
def demoState1 : GWBarycenterState 1 1 1 :=
  { cost := BarProblems.update_barycenter 0 1 1 LossName.sqeucl id id demoW demoAC
      (fun i => (demoSolve demoState0 i).matrix) demoState0.a,
    x := none,
    a := demoState0.a,
    errors := none,
    costs := demoState0.costs.set 0 (∑ i, (demoSolve demoState0 i).reg_gw_cost * demoW i),
    gw_convergence := demoState0.gw_convergence.set 0
      (if decide (∀ i, (demoSolve demoState0 i).convergence = true) then 1 else 0) }

section ClaimC6W

/-- C6 witness: one concrete `update_state` call. -/
theorem claimC6_witness :
    demoState1.costs.get? 0 = some (∑ i, (demoSolve demoState0 i).reg_gw_cost * demoW i) ∧
      demoState1.gw_convergence.get? 0 =
        some (if (∀ i : Fin 0, (demoSolve demoState0 i).convergence = true)
          then (1 : ℚ) else 0) :=
  claimC6 0 1 1 1 LossName.sqeucl id id demoCB none demoW demoAC false demoSolve
    demoState0 0 demoState1 (by decide) (by decide) rfl

end ClaimC6W

section ClaimC7W

/-- C7 witness: a run of zero iterations on a two-slot trace, plus one
concrete overwrite-only-own-index call. -/
theorem claimC7_witness :
    (init_state 1 1 1 2 false 0 5 7 (Matrix.of fun _ _ => 0) none (fun _ => 1)).costs =
        List.replicate 2 (-1) ∧
      (init_state 1 1 1 2 false 0 5 7 (Matrix.of fun _ _ => 0) none
        (fun _ => 1)).costs.length = 2 ∧
      demoState1.costs.get? 1 = demoState0.costs.get? 1 ∧
      (init_state 1 1 1 2 false 0 5 7 (Matrix.of fun _ _ => 0) none
        (fun _ => 1)).costs.length = 2 ∧
      (init_state 1 1 1 2 false 0 5 7 (Matrix.of fun _ _ => 0) none
        (fun _ => 1)).costs.get? 0 = some (-1) := by
  have h := claimC7 0 1 1 1 LossName.sqeucl id id demoCB none demoW demoAC false demoSolve
    2 0 5 7 (Matrix.of fun _ _ => 0) none (fun _ => 1) []
    (init_state 1 1 1 2 false 0 5 7 (Matrix.of fun _ _ => 0) none (fun _ => 1)) rfl
    0 (by decide) (by simp) demoState0 0 demoState1 1
  exact ⟨h.1, h.2.1, h.2.2.1 rfl (by decide), h.2.2.2.1, h.2.2.2.2⟩

end ClaimC7W

/-- Witness instance for the frame claim: a state with barycenter weights
equal to 2 and a single trace slot. -/
def demoState2 : GWBarycenterState 1 1 1 :=
  { cost := Matrix.of fun _ _ => 0, x := none, a := fun _ => 2, errors := none,
    costs := [-1], gw_convergence := [-1] }

/-- Witness instance: the state produced by one `update_state` call on
`demoState2` at iteration 0. -/
def demoState3 : GWBarycenterState 1 1 1 :=
  { cost := BarProblems.update_barycenter 0 1 1 LossName.sqeucl id id demoW demoAC
      (fun i => (demoSolve demoState2 i).matrix) demoState2.a,
    x := none,
    a := demoState2.a,
    errors := none,
    costs := demoState2.costs.set 0 (∑ i, (demoSolve demoState2 i).reg_gw_cost * demoW i),
    gw_convergence := demoState2.gw_convergence.set 0
      (if decide (∀ i, (demoSolve demoState2 i).convergence = true) then 1 else 0) }

section ClaimC8W

/-- C8 witness: the concrete call preserves the weight vector. -/
theorem claimC8_witness : demoState3.a = demoState2.a :=
  claimC8 0 1 1 1 LossName.sqeucl id id demoCB none demoW demoAC false demoSolve
    demoState2 0 demoState3 rfl

end ClaimC8W
